import Mathlib

/-!
A verification development for the Elasticsearch-client pipeline in `main.py`:
request building (`request_builder`), schema flattening (`index_field_names`),
hit flattening and result projection (the hit loop of `simple_query_search`),
and the table sorts (`ResultsGrid.column_sort_asc` / `column_sort_desc`).

JSON documents are modelled by the inductive `Json`; Python dicts are
association lists in insertion order (CPython preserves insertion order, and
`json.loads` builds dicts in document order).  Python exceptions are modelled
by the `Except PyErr` monad.  `json.dumps` followed by `json.loads` is the
identity on well-formed documents, so serialization is modelled as the
identity and properties are stated on the abstract JSON document.
-/

namespace Pylastic

/-- A JSON value.  Numbers are modelled as integers (the only numeric literal
in the pipeline is the constant `100`; hit values are carried opaquely). -/
inductive Json where
  | null
  | bool (b : Bool)
  | num (n : Int)
  | str (s : String)
  | arr (elems : List Json)
  | obj (entries : List (String × Json))

/-- Whether a JSON value is an object (a Python `dict` after `json.loads`);
this is what `isinstance(v, dict)` tests in the hit loop. -/
def Json.isObj : Json → Bool
  | .obj _ => true
  | _ => false

/-- Python built-in exceptions raised by the pipeline.  `schemaFormatError`
is modelled from the spec: the spec names a `SchemaFormatError` for malformed
schema input, but the source defines no such class; the constructor exists
only so that statements about that error can be made. -/
inductive PyErr where
  | attributeError
  | typeError
  | keyError
  | schemaFormatError
deriving DecidableEq

/-- Python dict assignment `d[k] = v`: an existing key keeps its position and
gets the new value; a new key is appended at the end. -/
def dictInsert (d : List (String × Json)) (k : String) (v : Json) :
    List (String × Json) :=
  if d.any (fun p => p.1 = k) then
    d.map (fun p => if p.1 = k then (k, v) else p)
  else
    d ++ [(k, v)]

/-- Building a Python dict by assigning the pairs of `ps` in order into an
initially empty dict (last write wins on a repeated key, first position kept). -/
def pyDictOfList (ps : List (String × Json)) : List (String × Json) :=
  ps.foldl (fun d p => dictInsert d p.1 p.2) []

/-- Python `str.split(',')`, on the explicit character list of the string:
separators are not grouped and the empty string yields `[""]`. -/
def splitCommaAux : List Char → List Char → List String
  | [], acc => [String.mk acc.reverse]
  | c :: cs, acc =>
    if c = ',' then String.mk acc.reverse :: splitCommaAux cs []
    else splitCommaAux cs (c :: acc)

/-- Python `fields.split(',')`. -/
def pySplitComma (s : String) : List String :=
  splitCommaAux s.data []

/-- `request_builder` from `main.py`: builds the search request body
`{"_source": fields.split(','), "size": 100, "query": {"multi_match":
{"query": search_term}}}` (keys listed in dict insertion order). -/
def request_builder (search_term fields : String) : List (String × Json) :=
  [("_source", Json.arr ((pySplitComma fields).map Json.str)),
   ("size", Json.num 100),
   ("query", Json.obj [("multi_match", Json.obj [("query", Json.str search_term)])])]

/-- Key lookup in a JSON object; `none` on a non-object. -/
def Json.getKey : Json → String → Option Json
  | .obj m, k => m.lookup k
  | _, _ => none

/-- Python `x.get(k)` where `x` is a JSON value: only dicts have a `get`
attribute, so a non-object raises `AttributeError`. -/
def pyGet : Json → String → Except PyErr (Option Json)
  | .obj m, k => .ok (m.lookup k)
  | _, _ => .error .attributeError

/-- Python `x.get(k)` where `x` is the result of a previous `.get` (so it may
be `None`, which has no `get` attribute). -/
def pyGetOpt : Option Json → String → Except PyErr (Option Json)
  | some j, k => pyGet j k
  | none, _ => .error .attributeError

/-- The inner loop of `index_field_names` for one field entry `(f, fv)` of a
`properties` object: `if 'properties' in mappings.get(f).keys()` requires
`fv` to be a dict (`AttributeError` otherwise); when present, the value under
`'properties'` must itself be a dict for `.keys()` to exist, and each of its
keys `sf` contributes `f + '.' + sf`; otherwise the field name `f` itself is
appended. -/
def fieldEntryNames (f : String) (fv : Json) : Except PyErr (List String) :=
  match fv with
  | .obj fm =>
    match fm.lookup "properties" with
    | some (.obj pm) => .ok (pm.map (fun kv => f ++ "." ++ kv.1))
    | some _ => .error .attributeError
    | none => .ok [f]
  | _ => .error .attributeError

/-- The iterations of the loop `for f in mappings` over the entries of a
`properties` object, appending the names contributed by each field in order;
a raised exception aborts the whole call. -/
def fieldsNames : List (String × Json) → Except PyErr (List String)
  | [] => .ok []
  | kv :: rest => do
    let names ← fieldEntryNames kv.1 kv.2
    let restNames ← fieldsNames rest
    pure (names ++ restNames)

/-- The loop `for f in mappings` of `index_field_names`, where `mappings`
holds the value found under `properties` (or `None` when absent).  Python
iterates dict keys, string characters and list elements, and raises
`TypeError` on `None`, numbers and booleans; in the string/list cases the
loop body immediately raises `AttributeError` (`str`/`list` have no `get`),
so a nonempty string/list errors and an empty one contributes nothing. -/
def propertiesFieldNames : Option Json → Except PyErr (List String)
  | some (.obj props) => fieldsNames props
  | some (.str s) => if s.data = [] then .ok [] else .error .attributeError
  | some (.arr xs) => if xs.isEmpty then .ok [] else .error .attributeError
  | _ => .error .typeError

/-- One iteration of the outer loop of `index_field_names` for the value `v`
stored under one index key: `requestjson.get(key).get('mappings').get('properties')`
followed by the field loop. -/
def indexEntryNames (v : Json) : Except PyErr (List String) := do
  let mappingsOpt ← pyGet v "mappings"
  let propsOpt ← pyGetOpt mappingsOpt "properties"
  propertiesFieldNames propsOpt

/-- `index_field_names` from `main.py`, on the parsed `/{index}/_mapping`
response (a mapping of index name to schema document): iterates the indices
in order, appending the field names of each to `fieldlist`.  There is no
deduplication.  A raised exception is modelled as an `Except.error`. -/
def index_field_names : List (String × Json) → Except PyErr (List String)
  | [] => .ok []
  | kv :: rest => do
    let names ← indexEntryNames kv.2
    let restNames ← index_field_names rest
    pure (names ++ restNames)

/-- A field entry is well formed when its value is an object whose
`properties` key, if present, holds an object. -/
def wellFormedField (fv : Json) : Bool :=
  match fv with
  | .obj fm =>
    match fm.lookup "properties" with
    | some (.obj _) => true
    | some _ => false
    | none => true
  | _ => false

/-- An index entry is well formed when it is an object with an object under
`mappings`, itself with an object under `properties`, all of whose field
entries are well formed. -/
def wellFormedIndex (v : Json) : Bool :=
  match v with
  | .obj m =>
    match m.lookup "mappings" with
    | some (.obj mm) =>
      match mm.lookup "properties" with
      | some (.obj props) => props.all (fun kv => wellFormedField kv.2)
      | _ => false
    | _ => false
  | _ => false

/-- A schema mapping is well formed when every index entry is. -/
def wellFormedSchema (schema : List (String × Json)) : Bool :=
  schema.all (fun kv => wellFormedIndex kv.2)

/-- Declarative field paths of one field entry: the subfield paths
`f + '.' + sf` when a `properties` object is present, the field name itself
otherwise. -/
def fieldEntryPaths (f : String) (fv : Json) : List String :=
  match fv with
  | .obj fm =>
    match fm.lookup "properties" with
    | some (.obj pm) => pm.map (fun kv => f ++ "." ++ kv.1)
    | _ => [f]
  | _ => [f]

/-- Declarative field paths of one index entry. -/
def indexPaths (v : Json) : List String :=
  match v with
  | .obj m =>
    match m.lookup "mappings" with
    | some (.obj mm) =>
      match mm.lookup "properties" with
      | some (.obj props) => props.flatMap (fun kv => fieldEntryPaths kv.1 kv.2)
      | _ => []
    | _ => []
  | _ => []

/-- Declarative field paths of a whole schema mapping: per-index paths
concatenated in index order (encounter order, duplicates kept). -/
def schemaPaths (schema : List (String × Json)) : List String :=
  schema.flatMap (fun kv => indexPaths kv.2)

/-- A schema whose two indices both declare a field `ts`. -/
def dupFieldSchema : List (String × Json) :=
  [("i1", Json.obj [("mappings", Json.obj [("properties", Json.obj [("ts", Json.obj [])])])]),
   ("i2", Json.obj [("mappings", Json.obj [("properties", Json.obj [("ts", Json.obj [])])])])]

/-- The spec's end-to-end schema example (well formed); its field list is
`["user.name", "user.age", "ts"]`. -/
def exampleSchema : List (String × Json) :=
  [("idx", Json.obj [("mappings", Json.obj [("properties", Json.obj
    [("user", Json.obj [("properties", Json.obj
       [("name", Json.obj [("type", Json.str "text")]),
        ("age", Json.obj [("type", Json.str "long")])])]),
     ("ts", Json.obj [("type", Json.str "date")])])])])]

/-- One iteration of the `_source` loop in `simple_query_search`, for the
item `(f, v)` of `hit.pop('_source').items()`: a dict value is unrolled one
level, a dict inside it one more level, and whatever sits at the third level
is assigned verbatim under the dotted key; a non-dict value is assigned
under its own key.  Assignments go into the accumulating dict `hitdict`. -/
def hitStep (hitdict : List (String × Json)) (kv : String × Json) :
    List (String × Json) :=
  match kv.2 with
  | .obj m1 =>
    m1.foldl (fun hd kv1 =>
      match kv1.2 with
      | .obj m2 =>
        m2.foldl (fun hd2 kv2 =>
          dictInsert hd2 ((kv.1 ++ "." ++ kv1.1) ++ "." ++ kv2.1) kv2.2) hd
      | _ => dictInsert hd (kv.1 ++ "." ++ kv1.1) kv1.2) hitdict
  | _ => dictInsert hitdict kv.1 kv.2

/-- The whole per-hit loop of `simple_query_search`: builds `hitdict` from
the items of the hit's `_source` dict. -/
def flatten_hit (src : List (String × Json)) : List (String × Json) :=
  src.foldl hitStep []

/-- Depth-bounded declarative flattening: with fuel `d`, a dict is unrolled
by extending the dotted path, and any value reached at fuel 0 (or any
non-dict value) is emitted verbatim at its path. -/
def flattenDepth : Nat → String → Json → List (String × Json)
  | 0, p, v => [(p, v)]
  | d + 1, p, .obj m => m.flatMap (fun kv => flattenDepth d (p ++ "." ++ kv.1) kv.2)
  | _ + 1, p, v => [(p, v)]

/-- Declarative two-level flattening of a `_source` document: exactly two
levels of nesting are unrolled, and deeper structure is kept verbatim as an
opaque leaf at its dotted path. -/
def specFlatten2 (src : List (String × Json)) : List (String × Json) :=
  src.flatMap (fun kv => flattenDepth 2 kv.1 kv.2)

/-- A three-levels-deep source document. -/
def deepSource : List (String × Json) :=
  [("a", Json.obj [("b", Json.obj [("c", Json.obj [("d", Json.num 1)])])])]

/-- Python `hit.pop('_source')` followed by `.items()`: `pop` on a non-dict
hit raises `AttributeError`, a missing `_source` key raises `KeyError`, and
`.items()` on a non-dict value raises `AttributeError`. -/
def popSource (hit : Json) : Except PyErr (List (String × Json)) :=
  match hit with
  | .obj h =>
    match h.lookup "_source" with
    | some (.obj src) => .ok src
    | some _ => .error .attributeError
    | none => .error .keyError
  | _ => .error .attributeError

/-- Whether a hit would survive `hit.pop('_source').items()`. -/
def wellFormedHit (hit : Json) : Bool :=
  match popSource hit with
  | .ok _ => true
  | .error _ => false

/-- The `_source` dict of a well-formed hit (and `[]` on a malformed one). -/
def sourceOf (hit : Json) : List (String × Json) :=
  match popSource hit with
  | .ok src => src
  | .error _ => []

/-- The pandas DataFrame as used by the pipeline: an ordered column list and
ordered rows, each row the dict of its present cells (an absent key is a
`NaN` cell). -/
structure DataFrame where
  columns : List String
  rows : List (List (String × Json))

/-- `results.append(hitdict, ignore_index=True)`: one row is appended and
new keys extend the column list at the end, in dict order. -/
def DataFrame.append (df : DataFrame) (row : List (String × Json)) : DataFrame :=
  ⟨df.columns ++ (row.map Prod.fst).filter (fun k => !df.columns.contains k),
   df.rows ++ [row]⟩

/-- The hit loop of `simple_query_search`, starting from the DataFrame
accumulated so far: `results = results.append(...)` per hit, with a raised
exception aborting the search. -/
def projectHits : List Json → DataFrame → Except PyErr DataFrame
  | [], df => .ok df
  | hit :: rest, df => do
    let src ← popSource hit
    projectHits rest (df.append (flatten_hit src))

/-- The result projector of `simple_query_search`: the hit loop starting
from `pd.DataFrame()` (zero rows, zero columns). -/
def project (hits : List Json) : Except PyErr DataFrame :=
  projectHits hits ⟨[], []⟩

/-- The two hits of the spec's end-to-end search example. -/
def exampleHits : List Json :=
  [Json.obj [("_source", Json.obj [("user", Json.obj [("name", Json.str "A")])])],
   Json.obj [("_source", Json.obj [("ts", Json.str "2020")])]]

/-- Rank of a JSON value in the sort key (the sort comparator is total on
the model; pandas compares the underlying scalar values, with missing cells
handled separately). -/
def jrank : Json → Nat
  | .null => 0
  | .bool _ => 1
  | .num _ => 2
  | .str _ => 3
  | .arr _ => 4
  | .obj _ => 5

/-- Numeric component of the sort key. -/
def jint : Json → Int
  | .bool b => if b then 1 else 0
  | .num n => n
  | _ => 0

/-- String component of the sort key. -/
def jstrv : Json → String
  | .str s => s
  | _ => ""

/-- Lexicographic sort key of a JSON value: numeric cells compare
numerically and string cells lexicographically, as pandas does on a
homogeneous column. -/
def jsonKey (v : Json) : Lex (Nat × Lex (Int × String)) :=
  toLex (jrank v, toLex (jint v, jstrv v))

/-- The cell of a row in a given column; `none` models a `NaN` cell. -/
def cellOf (header : String) (row : List (String × Json)) : Option Json :=
  row.lookup header

/-- Ascending comparator used by `sort_values(by=header, kind="mergesort")`:
values compare by key, and a missing (`NaN`) cell sorts after every present
cell (`na_position` defaults to `'last'`). -/
def rowLeAsc (header : String) (a b : List (String × Json)) : Bool :=
  match cellOf header a, cellOf header b with
  | none, cb => cb.isNone
  | some _, none => true
  | some x, some y => decide (jsonKey x ≤ jsonKey y)

/-- Descending comparator of
`sort_values(by=header, ascending=False, kind="mergesort")`: present cells
compare in reverse order, and a missing cell still sorts last (pandas
reverses the non-NaN block twice around a stable argsort, so the descending
sort is also stable with NaNs kept at the end). -/
def rowLeDesc (header : String) (a b : List (String × Json)) : Bool :=
  match cellOf header a, cellOf header b with
  | none, cb => cb.isNone
  | some _, none => true
  | some x, some y => decide (jsonKey y ≤ jsonKey x)

/-- `ResultsGrid.column_sort_asc`: a stable (mergesort) in-place sort of the
result rows by the clicked column; `ignore_index=True` only resets the
integer index, which the model does not carry. -/
def column_sort_asc (df : DataFrame) (header : String) : DataFrame :=
  ⟨df.columns, df.rows.mergeSort (rowLeAsc header)⟩

/-- `ResultsGrid.column_sort_desc`: the descending variant. -/
def column_sort_desc (df : DataFrame) (header : String) : DataFrame :=
  ⟨df.columns, df.rows.mergeSort (rowLeDesc header)⟩

/-- Two rows with equal `"k"` cells, distinguished by `"id"`. -/
def rowX : List (String × Json) := [("k", Json.num 1), ("id", Json.str "x")]

/-- Second row of the stability example. -/
def rowY : List (String × Json) := [("k", Json.num 1), ("id", Json.str "y")]

/-- The stability example table from the spec. -/
def stableDF : DataFrame := ⟨["k", "id"], [rowX, rowY]⟩

end Pylastic

namespace Pylastic

/-- C2: for every `(queryText, fields)` pair (the empty query string
included), the request body built by `request_builder` has `size == 100` and
`query.multi_match.query == queryText`. -/
theorem request_builder_size_and_query (search_term fields : String) :
    List.lookup "size" (request_builder search_term fields) = some (Json.num 100) ∧
    (((List.lookup "query" (request_builder search_term fields)).bind
        (fun q => q.getKey "multi_match")).bind
        (fun q => q.getKey "query")) = some (Json.str search_term) := by
  constructor <;> rfl

/-- C9: for every input string `fields`, the request body contains a
`_source` key whose value is exactly the comma-split of `fields`; the
wildcard `"*"` yields `["*"]` (the key is never omitted) and the empty
string yields `[""]`. -/
theorem request_builder_source_field (search_term fields : String) :
    List.lookup "_source" (request_builder search_term fields) =
      some (Json.arr ((pySplitComma fields).map Json.str)) ∧
    pySplitComma "*" = ["*"] ∧
    pySplitComma "" = [""] := by
  refine ⟨rfl, ?_, ?_⟩ <;> decide

lemma ok_bind {α β : Type} (a : α) (f : α → Except PyErr β) :
    ((Except.ok a : Except PyErr α) >>= f) = f a := rfl

lemma error_bind {α β : Type} (e : PyErr) (f : α → Except PyErr β) :
    ((Except.error e : Except PyErr α) >>= f) = Except.error e := rfl

lemma pure_def {α : Type} (a : α) : (pure a : Except PyErr α) = Except.ok a := rfl

lemma fieldEntryNames_wf {f : String} {fv : Json} (h : wellFormedField fv = true) :
    fieldEntryNames f fv = .ok (fieldEntryPaths f fv) := by
  rw [wellFormedField.eq_def] at h
  split at h
  · next fm =>
    rw [fieldEntryNames, fieldEntryPaths]
    rcases hp : fm.lookup "properties" with - | pv
    · rfl
    · cases pv <;> simp_all
  · simp at h

lemma fieldsNames_wf {props : List (String × Json)}
    (h : ∀ kv ∈ props, wellFormedField kv.2 = true) :
    fieldsNames props = .ok (props.flatMap (fun kv => fieldEntryPaths kv.1 kv.2)) := by
  induction props with
  | nil => rfl
  | cons kv rest ih =>
    have h1 : wellFormedField kv.2 = true := h kv (List.mem_cons_self kv rest)
    have h2 := ih (fun x hx => h x (List.mem_cons_of_mem kv hx))
    rw [fieldsNames, fieldEntryNames_wf h1, ok_bind, h2, ok_bind, pure_def,
      List.flatMap_cons]

lemma indexEntryNames_wf {v : Json} (h : wellFormedIndex v = true) :
    indexEntryNames v = .ok (indexPaths v) := by
  rw [wellFormedIndex.eq_def] at h
  split at h
  · next m =>
    split at h
    · next mm hm =>
      split at h
      · next props hp =>
        have hall : ∀ kv ∈ props, wellFormedField kv.2 = true := by
          simp only [List.all_eq_true] at h
          exact fun kv hkv => h kv hkv
        rw [indexEntryNames]
        simp only [pyGet, hm, ok_bind, pyGetOpt, hp, propertiesFieldNames,
          fieldsNames_wf hall, indexPaths]
      · simp at h
    · simp at h
  · simp at h

/-- C1 (amended): on a well-formed schema mapping, `index_field_names`
returns every leaf path in encounter order across indices (per index in key
order, fields in mapping order); duplicates are NOT removed, so a field
present in several indices appears once per index. -/
theorem index_field_names_encounter_order (schema : List (String × Json))
    (h : wellFormedSchema schema = true) :
    index_field_names schema = .ok (schemaPaths schema) := by
  induction schema with
  | nil => rfl
  | cons kv rest ih =>
    rw [wellFormedSchema, List.all_cons, Bool.and_eq_true] at h
    have h2 : wellFormedSchema rest = true := h.2
    rw [index_field_names, indexEntryNames_wf h.1, ok_bind, ih h2, ok_bind, pure_def]
    simp only [schemaPaths, List.flatMap_cons]

/-- C1 counterexample: the field list for `dupFieldSchema` is `["ts", "ts"]`,
which contains a duplicate FieldPath — `index_field_names` does not
deduplicate across indices. -/
theorem index_field_names_duplicate :
    index_field_names dupFieldSchema = .ok ["ts", "ts"] ∧
    ¬ (["ts", "ts"] : List String).Nodup := by
  exact ⟨rfl, by decide⟩

theorem index_field_names_encounter_order_witness :
    index_field_names exampleSchema = .ok (schemaPaths exampleSchema) :=
  index_field_names_encounter_order exampleSchema rfl

lemma fieldEntryNames_error {f : String} {fv : Json} {e : PyErr}
    (h : fieldEntryNames f fv = .error e) : e = .attributeError := by
  cases fv <;> simp only [fieldEntryNames] at h <;>
      first
        | (simp only [Except.error.injEq] at h; exact h.symm)
        | skip
  case obj fm =>
    rcases hm : fm.lookup "properties" with - | pv <;> rw [hm] at h
    · simp at h
    · cases pv <;> simp_all

lemma fieldsNames_error {props : List (String × Json)} {e : PyErr}
    (h : fieldsNames props = .error e) : e = .attributeError := by
  induction props with
  | nil => simp [fieldsNames] at h
  | cons kv rest ih =>
    rw [fieldsNames] at h
    rcases hf : fieldEntryNames kv.1 kv.2 with ef | names <;> rw [hf] at h
    · rw [error_bind] at h
      simp only [Except.error.injEq] at h
      subst h
      exact fieldEntryNames_error hf
    · rw [ok_bind] at h
      rcases hr : fieldsNames rest with er | restNames <;> rw [hr] at h
      · rw [error_bind] at h
        simp only [Except.error.injEq] at h
        subst h
        exact ih hr
      · rw [ok_bind, pure_def] at h
        simp at h

lemma propertiesFieldNames_error {v : Option Json} {e : PyErr}
    (h : propertiesFieldNames v = .error e) :
    e = .attributeError ∨ e = .typeError := by
  rcases v with - | j
  · simp only [propertiesFieldNames, Except.error.injEq] at h
    exact Or.inr h.symm
  · cases j <;> simp only [propertiesFieldNames] at h
    case null => exact Or.inr (by simpa using h.symm)
    case bool b => exact Or.inr (by simpa using h.symm)
    case num n => exact Or.inr (by simpa using h.symm)
    case str s => split at h <;> simp_all
    case arr xs => split at h <;> simp_all
    case obj props => exact Or.inl (fieldsNames_error h)

lemma indexEntryNames_error {v : Json} {e : PyErr}
    (h : indexEntryNames v = .error e) :
    e = .attributeError ∨ e = .typeError := by
  rw [indexEntryNames] at h
  cases v <;> simp only [pyGet] at h <;>
      first
        | (rw [error_bind] at h;
           simp only [Except.error.injEq] at h;
           exact Or.inl h.symm)
        | skip
  case obj m =>
    rw [ok_bind] at h
    rcases hm : m.lookup "mappings" with - | mv <;> rw [hm] at h
    · rw [show pyGetOpt none "properties" = .error .attributeError from rfl,
        error_bind] at h
      simp only [Except.error.injEq] at h
      exact Or.inl h.symm
    · cases mv <;> simp only [pyGetOpt, pyGet] at h
      case obj mm =>
        rw [ok_bind] at h
        exact propertiesFieldNames_error h
      all_goals
        rw [error_bind] at h
        simp only [Except.error.injEq] at h
        exact Or.inl h.symm

/-- C5 (amended): every error raised by `index_field_names` is a Python
built-in `AttributeError` or `TypeError` (from calling `.get` on a missing
and hence `None` value, or iterating `None`); the code defines no
`SchemaFormatError`, so no error is ever of that kind. -/
theorem index_field_names_error_kinds (schema : List (String × Json)) (e : PyErr)
    (h : index_field_names schema = .error e) :
    e ≠ .schemaFormatError ∧ (e = .attributeError ∨ e = .typeError) := by
  suffices hs : e = .attributeError ∨ e = .typeError by
    refine ⟨?_, hs⟩
    rcases hs with h | h <;> subst h <;> simp
  induction schema with
  | nil => simp [index_field_names] at h
  | cons kv rest ih =>
    rw [index_field_names] at h
    rcases hf : indexEntryNames kv.2 with ef | names <;> rw [hf] at h
    · rw [error_bind] at h
      simp only [Except.error.injEq] at h
      subst h
      exact indexEntryNames_error hf
    · rw [ok_bind] at h
      rcases hr : index_field_names rest with er | restNames <;> rw [hr] at h
      · rw [error_bind] at h
        simp only [Except.error.injEq] at h
        subst h
        exact ih hr
      · rw [ok_bind, pure_def] at h
        simp at h

/-- C5 counterexample: an index entry with no `mappings` key makes
`index_field_names` fail with an `AttributeError` (Python:
`'NoneType' object has no attribute 'get'`), not a `SchemaFormatError` —
no such class exists in the code. -/
theorem index_field_names_missing_mappings :
    index_field_names [("idx", Json.obj [])] = .error .attributeError ∧
    PyErr.attributeError ≠ PyErr.schemaFormatError :=
  ⟨rfl, by decide⟩

theorem index_field_names_error_kinds_witness :
    PyErr.attributeError ≠ PyErr.schemaFormatError ∧
    (PyErr.attributeError = PyErr.attributeError ∨
      PyErr.attributeError = PyErr.typeError) :=
  index_field_names_error_kinds [("idx", Json.obj [])] .attributeError rfl

lemma foldl_flatMap {α β γ : Type} (g : β → List γ) (f : α → γ → α) :
    ∀ (xs : List β) (a : α),
      (xs.flatMap g).foldl f a = xs.foldl (fun acc x => (g x).foldl f acc) a := by
  intro xs
  induction xs with
  | nil => intro a; rfl
  | cons x rest ih =>
    intro a
    rw [List.flatMap_cons, List.foldl_append, List.foldl_cons, ih]

lemma hitStep_eq (a : List (String × Json)) (kv : String × Json) :
    hitStep a kv =
      (flattenDepth 2 kv.1 kv.2).foldl (fun d p => dictInsert d p.1 p.2) a := by
  rcases kv with ⟨f, v⟩
  cases v <;> try rfl
  case obj m1 =>
    rw [hitStep]
    rw [show flattenDepth 2 f (Json.obj m1) =
        m1.flatMap (fun kv => flattenDepth 1 (f ++ "." ++ kv.1) kv.2) from rfl]
    rw [foldl_flatMap]
    refine List.foldl_ext _ _ a (fun hd kv1 hmem => ?_)
    rcases kv1 with ⟨sf, w⟩
    cases w <;> try rfl
    case obj m2 =>
      rw [show flattenDepth 1 (f ++ "." ++ sf) (Json.obj m2) =
          m2.flatMap (fun kv => flattenDepth 0 ((f ++ "." ++ sf) ++ "." ++ kv.1) kv.2)
        from rfl]
      rw [foldl_flatMap]
      rfl

lemma flatten_hit_eq (src : List (String × Json)) :
    flatten_hit src = pyDictOfList (specFlatten2 src) := by
  rw [flatten_hit, pyDictOfList, specFlatten2, foldl_flatMap]
  exact List.foldl_ext _ _ [] (fun a kv _ => hitStep_eq a kv)

/-- C6: the per-hit loop of `simple_query_search` flattens exactly two
levels of nesting — leaf values are assigned at their dotted paths and any
structure nested deeper than two levels is assigned verbatim, as one opaque
value, at its depth-two dotted path (`flattenDepth 2` truncates there); the
assignments build a Python dict.  Concretely, a three-levels-deep document
keeps its third level as an opaque value under `a.b.c`. -/
theorem hit_flatten_two_levels :
    (∀ src : List (String × Json), flatten_hit src = pyDictOfList (specFlatten2 src)) ∧
    flatten_hit deepSource = [("a.b.c", Json.obj [("d", Json.num 1)])] :=
  ⟨fun src => flatten_hit_eq src, rfl⟩

lemma dictInsert_not_mem {d : List (String × Json)} {k : String} (v : Json)
    (h : ∀ p ∈ d, p.1 ≠ k) : dictInsert d k v = d ++ [(k, v)] := by
  have hc : d.any (fun p => decide (p.1 = k)) = false := by
    rw [List.any_eq_false]
    intro p hp
    simp only [decide_eq_true_eq]
    exact h p hp
  rw [dictInsert]
  simp only [hc, Bool.false_eq_true, if_false]

lemma pyFold_nodup :
    ∀ (ps acc : List (String × Json)), (ps.map Prod.fst).Nodup →
      (∀ p ∈ ps, ∀ q ∈ acc, q.1 ≠ p.1) →
      ps.foldl (fun d p => dictInsert d p.1 p.2) acc = acc ++ ps := by
  intro ps
  induction ps with
  | nil => intro acc _ _; simp
  | cons p rest ih =>
    intro acc hnd hdisj
    rw [List.foldl_cons,
      dictInsert_not_mem p.2 (fun q hq => hdisj p (List.mem_cons_self p rest) q hq)]
    rw [List.map_cons, List.nodup_cons] at hnd
    have hdisj2 : ∀ r ∈ rest, ∀ q ∈ acc ++ [p], q.1 ≠ r.1 := by
      intro r hr q hq
      rcases List.mem_append.mp hq with hq | hq
      · exact hdisj r (List.mem_cons_of_mem p hr) q hq
      · rcases List.mem_singleton.mp hq with rfl
        intro hpr
        exact hnd.1 (hpr ▸ List.mem_map_of_mem Prod.fst hr)
    rw [ih (acc ++ [p]) hnd.2 hdisj2, List.append_assoc, List.singleton_append]

lemma pyDictOfList_nodup {ps : List (String × Json)}
    (h : (ps.map Prod.fst).Nodup) : pyDictOfList ps = ps := by
  rw [pyDictOfList, pyFold_nodup ps [] h (fun p _ q hq => absurd hq (List.not_mem_nil q)),
    List.nil_append]

lemma specFlatten2_flat {src : List (String × Json)}
    (h : ∀ kv ∈ src, kv.2.isObj = false) : specFlatten2 src = src := by
  induction src with
  | nil => rfl
  | cons kv rest ih =>
    have h1 : kv.2.isObj = false := h kv (List.mem_cons_self kv rest)
    have h2 := ih (fun x hx => h x (List.mem_cons_of_mem kv hx))
    rw [specFlatten2] at h2
    rw [specFlatten2, List.flatMap_cons, h2]
    rcases kv with ⟨f, v⟩
    cases v <;> simp_all [flattenDepth, Json.isObj]

/-- C8: on a `_source` document with no nesting (a dict, so with distinct
keys, all of whose values are non-dict scalars) the hit flattener returns
the document itself, so in particular its keys are the document's top-level
keys unchanged; and the one-level-nested document `{"a": {"b": 1}}`
flattens to `{"a.b": 1}`. -/
theorem hit_flatten_no_nesting (src : List (String × Json))
    (hnd : (src.map Prod.fst).Nodup)
    (hflat : ∀ kv ∈ src, kv.2.isObj = false) :
    flatten_hit src = src ∧
    (flatten_hit src).map Prod.fst = src.map Prod.fst ∧
    flatten_hit [("a", Json.obj [("b", Json.num 1)])] = [("a.b", Json.num 1)] := by
  have heq : flatten_hit src = src := by
    rw [flatten_hit_eq, specFlatten2_flat hflat, pyDictOfList_nodup hnd]
  exact ⟨heq, by rw [heq], rfl⟩

theorem hit_flatten_no_nesting_witness :
    flatten_hit [("x", Json.num 1), ("y", Json.str "v")] =
        [("x", Json.num 1), ("y", Json.str "v")] ∧
    (flatten_hit [("x", Json.num 1), ("y", Json.str "v")]).map Prod.fst =
        [("x", Json.num 1), ("y", Json.str "v")].map Prod.fst ∧
    flatten_hit [("a", Json.obj [("b", Json.num 1)])] = [("a.b", Json.num 1)] :=
  hit_flatten_no_nesting [("x", Json.num 1), ("y", Json.str "v")]
    (by decide) (by decide)

lemma popSource_of_wf {hit : Json} (h : wellFormedHit hit = true) :
    popSource hit = .ok (sourceOf hit) := by
  rw [wellFormedHit] at h
  rw [sourceOf]
  rcases hp : popSource hit with e | src
  · rw [hp] at h
    simp at h
  · rfl

lemma projectHits_ok :
    ∀ (hits : List Json) (df0 : DataFrame), (∀ x ∈ hits, wellFormedHit x = true) →
      ∃ df, projectHits hits df0 = .ok df ∧
        df.rows = df0.rows ++ hits.map (fun x => flatten_hit (sourceOf x)) := by
  intro hits
  induction hits with
  | nil => intro df0 _; exact ⟨df0, rfl, by simp⟩
  | cons hit rest ih =>
    intro df0 h
    have h1 := popSource_of_wf (h hit (List.mem_cons_self hit rest))
    obtain ⟨df, hdf, hrows⟩ := ih (df0.append (flatten_hit (sourceOf hit)))
      (fun x hx => h x (List.mem_cons_of_mem hit hx))
    refine ⟨df, ?_, ?_⟩
    · rw [projectHits, h1, ok_bind, hdf]
    · rw [hrows]
      rw [show (df0.append (flatten_hit (sourceOf hit))).rows =
          df0.rows ++ [flatten_hit (sourceOf hit)] from rfl]
      rw [List.map_cons, List.append_assoc, List.singleton_append]

/-- C3: for well-formed hits (each a dict carrying a `_source` dict), the
hit loop of `simple_query_search` produces a table with one row per hit, in
hit order (no row dropped or deduplicated), each row the flattening of that
hit's `_source`; an empty hit list yields the zero-row, zero-column table. -/
theorem project_preserves_hits (hits : List Json)
    (h : ∀ x ∈ hits, wellFormedHit x = true) :
    ∃ df, project hits = .ok df ∧
      df.rows = hits.map (fun x => flatten_hit (sourceOf x)) ∧
      df.rows.length = hits.length ∧
      (hits = [] → df.columns = [] ∧ df.rows = []) := by
  obtain ⟨df, hdf, hrows⟩ := projectHits_ok hits ⟨[], []⟩ h
  rw [List.nil_append] at hrows
  refine ⟨df, hdf, hrows, ?_, ?_⟩
  · rw [hrows, List.length_map]
  · rintro rfl
    have h2 : (Except.ok (⟨[], []⟩ : DataFrame) : Except PyErr DataFrame) =
        .ok df := hdf
    rw [← Except.ok.inj h2]
    exact ⟨rfl, rfl⟩

theorem project_preserves_hits_witness :
    ∃ df, project exampleHits = .ok df ∧
      df.rows = exampleHits.map (fun x => flatten_hit (sourceOf x)) ∧
      df.rows.length = exampleHits.length ∧
      (exampleHits = [] → df.columns = [] ∧ df.rows = []) :=
  project_preserves_hits exampleHits (by decide)

lemma rowLeAsc_trans (header : String) (a b c : List (String × Json))
    (h1 : rowLeAsc header a b = true) (h2 : rowLeAsc header b c = true) :
    rowLeAsc header a c = true := by
  rw [rowLeAsc] at h1 h2 ⊢
  revert h1 h2
  rcases cellOf header a with - | x <;> rcases cellOf header b with - | y <;>
    rcases cellOf header c with - | z <;> intro h1 h2 <;> simp_all
  exact le_trans h1 h2

lemma rowLeAsc_total (header : String) (a b : List (String × Json)) :
    (rowLeAsc header a b || rowLeAsc header b a) = true := by
  rw [rowLeAsc, rowLeAsc]
  rcases cellOf header a with - | x <;> rcases cellOf header b with - | y <;> simp_all
  exact le_total (jsonKey x) (jsonKey y)

lemma rowLeDesc_trans (header : String) (a b c : List (String × Json))
    (h1 : rowLeDesc header a b = true) (h2 : rowLeDesc header b c = true) :
    rowLeDesc header a c = true := by
  rw [rowLeDesc] at h1 h2 ⊢
  revert h1 h2
  rcases cellOf header a with - | x <;> rcases cellOf header b with - | y <;>
    rcases cellOf header c with - | z <;> intro h1 h2 <;> simp_all
  exact le_trans h2 h1

lemma rowLeDesc_total (header : String) (a b : List (String × Json)) :
    (rowLeDesc header a b || rowLeDesc header b a) = true := by
  rw [rowLeDesc, rowLeDesc]
  rcases cellOf header a with - | x <;> rcases cellOf header b with - | y <;> simp_all
  exact le_total (jsonKey y) (jsonKey x)

lemma rowLeAsc_of_eq {header : String} {a b : List (String × Json)}
    (h : cellOf header a = cellOf header b) : rowLeAsc header a b = true := by
  rw [rowLeAsc, h]
  rcases cellOf header b with - | y <;> simp

lemma rowLeDesc_of_eq {header : String} {a b : List (String × Json)}
    (h : cellOf header a = cellOf header b) : rowLeDesc header a b = true := by
  rw [rowLeDesc, h]
  rcases cellOf header b with - | y <;> simp

/-- C4: both column sorts are stable — two rows with equal cells in the
chosen column keep their relative order (as a pair they remain a sublist of
the sorted rows), ascending and descending alike (`kind="mergesort"`). -/
theorem column_sort_stable (df : DataFrame) (header : String)
    (a b : List (String × Json))
    (hsub : [a, b].Sublist df.rows)
    (heq : cellOf header a = cellOf header b) :
    [a, b].Sublist (column_sort_asc df header).rows ∧
    [a, b].Sublist (column_sort_desc df header).rows :=
  ⟨List.pair_sublist_mergeSort (rowLeAsc_trans header) (rowLeAsc_total header)
      (rowLeAsc_of_eq heq) hsub,
    List.pair_sublist_mergeSort (rowLeDesc_trans header) (rowLeDesc_total header)
      (rowLeDesc_of_eq heq) hsub⟩

theorem column_sort_stable_witness :
    [rowX, rowY].Sublist (column_sort_asc stableDF "k").rows ∧
    [rowX, rowY].Sublist (column_sort_desc stableDF "k").rows :=
  column_sort_stable stableDF "k" rowX rowY (List.Sublist.refl _) rfl

/-- C10: each sort only permutes the existing rows — the rows of the sorted
table are a permutation of the original rows (no row added, dropped or
modified) and the column list is unchanged, in both directions. -/
theorem column_sort_only_permutes (df : DataFrame) (header : String) :
    (column_sort_asc df header).rows.Perm df.rows ∧
    (column_sort_asc df header).columns = df.columns ∧
    (column_sort_desc df header).rows.Perm df.rows ∧
    (column_sort_desc df header).columns = df.columns :=
  ⟨List.mergeSort_perm df.rows (rowLeAsc header), rfl,
    List.mergeSort_perm df.rows (rowLeDesc header), rfl⟩

lemma rowLeAsc_none {header : String} {a b : List (String × Json)}
    (hl : rowLeAsc header a b = true) (ha : cellOf header a = none) :
    cellOf header b = none := by
  rw [rowLeAsc, ha] at hl
  simpa using hl

lemma rowLeDesc_none {header : String} {a b : List (String × Json)}
    (hl : rowLeDesc header a b = true) (ha : cellOf header a = none) :
    cellOf header b = none := by
  rw [rowLeDesc, ha] at hl
  simpa using hl

/-- C7: after sorting by any column, in either direction, every row with a
missing (`NaN`) cell in that column comes after every row with a present
cell (pairwise: a missing-cell row is never followed by a present-cell row);
the sort model is a total function, so no exception is raised on missing
cells (pandas keeps `NaN` rows at the end, `na_position='last'`). -/
theorem column_sort_missing_cells_last (df : DataFrame) (header : String) :
    (column_sort_asc df header).rows.Pairwise
      (fun a b => cellOf header a = none → cellOf header b = none) ∧
    (column_sort_desc df header).rows.Pairwise
      (fun a b => cellOf header a = none → cellOf header b = none) := by
  constructor
  · exact (List.sorted_mergeSort (rowLeAsc_trans header) (rowLeAsc_total header)
      df.rows).imp (fun hab ha => rowLeAsc_none hab ha)
  · exact (List.sorted_mergeSort (rowLeDesc_trans header) (rowLeDesc_total header)
      df.rows).imp (fun hab ha => rowLeDesc_none hab ha)

end Pylastic
